import Mathlib

/-!
# Concordia Party Relay — verification of the natural-language spec

Shallow embedding of the `concordia` package (`src/concordia/*.py`): the
invite codec (`utils.py`), the connection handler and registry of
`server.py`, the debounce-batch pipeline (`_enqueue_prompt` /
`_dedupe_loop` / `_process_batch`), the Gemini collaborator failure
handling (`dedupe.py`), and the end-of-session context file
(`_write_context_file`).

Strings are modelled as `List Char` where character-level reasoning is
needed, wrapped into `String` at the interfaces.  Python `str.strip` /
`str.rstrip`, decimal integer rendering (`str(int)`), `int(str)` parsing,
substring membership (`in`) and `dict` assignment are given explicit
executable models below, each next to the source construct it embeds.
-/

/-- Python whitespace for `str.strip()` (ASCII subset: space, `\t`, `\n`,
`\r`, `\x0b`, `\x0c`). -/
def isPySpace (c : Char) : Bool :=
  c = ' ' || c = '\t' || c = '\n' || c = '\r' || c = '\x0b' || c = '\x0c'

/-- Model of Python `str.rstrip()` on character lists. -/
def pyRstripList (l : List Char) : List Char :=
  (l.reverse.dropWhile isPySpace).reverse

/-- Model of Python `str.strip()` on character lists: drop leading
whitespace, then trailing whitespace. -/
def pyStripList (l : List Char) : List Char :=
  pyRstripList (l.dropWhile isPySpace)

/-- Model of Python `str.strip()` on `String`. -/
def strStrip (s : String) : String :=
  String.mk (pyStripList s.data)

/-- ASCII decimal digit test. -/
def isAsciiDigit (c : Char) : Bool :=
  '0' ≤ c && c ≤ '9'

/-- Value of an ASCII digit character. -/
def digitVal (c : Char) : Nat :=
  c.toNat - 48

/-- The decimal digit character for `n < 10` (used to model Python
`str(int)` rendering). -/
def digitChar10 (n : Nat) : Char :=
  match n with
  | 0 => '0' | 1 => '1' | 2 => '2' | 3 => '3' | 4 => '4'
  | 5 => '5' | 6 => '6' | 7 => '7' | 8 => '8' | _ => '9'

/-- Fuel-driven decimal rendering of a natural number (structural
recursion so that the kernel can evaluate it). -/
def natReprAux : Nat → Nat → List Char
  | 0, _ => []
  | fuel + 1, n =>
    if n < 10 then [digitChar10 n]
    else natReprAux fuel (n / 10) ++ [digitChar10 (n % 10)]

/-- Model of Python `str(n)` for a natural number `n`: standard decimal
rendering, no sign, no leading zeros. -/
def natReprL (n : Nat) : List Char :=
  natReprAux (n + 1) n

/-- Model of Python `str(i)` for an integer: a `-` sign followed by the
decimal magnitude when negative. -/
def intReprL (i : Int) : List Char :=
  if i < 0 then '-' :: natReprL (-i).toNat else natReprL i.toNat

/-- Digit-sequence parser with Python 3 underscore grouping
(`digit (digit | "_" digit)*`), accumulating the decimal value.  Used to
model the digit part of Python `int(str)`. -/
def parseDigitsAux : Nat → List Char → Option Nat
  | acc, [] => some acc
  | acc, c :: rest =>
    if c = '_' then
      match rest with
      | [] => none
      | d :: rest2 =>
        if isAsciiDigit d then parseDigitsAux (acc * 10 + digitVal d) rest2 else none
    else if isAsciiDigit c then parseDigitsAux (acc * 10 + digitVal c) rest
    else none

/-- Nonempty digit sequence parser (first character must be a digit). -/
def parseDigits : List Char → Option Nat
  | [] => none
  | c :: rest => if isAsciiDigit c then parseDigitsAux (digitVal c) rest else none

/-- Model of Python `int(str)`: strip whitespace, optional `+`/`-` sign,
then a nonempty digit sequence (with underscore grouping); `none` models
the `ValueError` raise. -/
def pyParseInt (l : List Char) : Option Int :=
  match pyStripList l with
  | [] => none
  | c :: t =>
    if c = '+' then (parseDigits t).map (fun n => (n : Int))
    else if c = '-' then (parseDigits t).map (fun n => -(n : Int))
    else (parseDigits (c :: t)).map (fun n => (n : Int))

/-- Model of Python `"\n".join(lines)` on character lists. -/
def joinLines : List (List Char) → List Char
  | [] => []
  | l :: ls =>
    match ls with
    | [] => l
    | _ :: _ => l ++ '\n' :: joinLines ls

/-- Model of Python substring membership `pat in hay`. -/
def strContains (hay pat : String) : Bool :=
  decide (pat.data <:+: hay.data)

/-! ## Invite codec (`src/concordia/utils.py`) -/

/-- `utils.Invite` dataclass: `{host, port, token}`. -/
structure Invite where
  host : String
  port : Int
  token : String
deriving DecidableEq, Repr

/-- `utils.INVITE_PREFIX = "concordia://"`. -/
def invitePrefixL : List Char := "concordia://".data

/-- The scheme-strip step of `utils.parse_invite`:
`if code.startswith(INVITE_PREFIX): code = code[len(INVITE_PREFIX):]` —
the scheme text is stripped when present and the input is accepted
unchanged when absent. -/
def stripInviteScheme (l : List Char) : List Char :=
  if invitePrefixL.isPrefixOf l then l.drop invitePrefixL.length else l

/-- Model of Python `s.split(sep, 1)` succeeding: split at the first
occurrence of `c`, `none` when `c` does not occur. -/
def splitFirst (c : Char) : List Char → Option (List Char × List Char)
  | [] => none
  | x :: xs =>
    if x = c then some ([], xs)
    else (splitFirst c xs).map (fun p => (x :: p.1, p.2))

/-- Model of Python `s.rsplit(sep, 1)` succeeding: split at the last
occurrence of `c`, `none` when `c` does not occur. -/
def rsplitLast (c : Char) (l : List Char) : Option (List Char × List Char) :=
  (splitFirst c l.reverse).map (fun p => (p.2.reverse, p.1.reverse))

/-- The three `ValueError` causes of `utils.parse_invite`: the two
explicit raises ("Invite code must include host:port/token") and the
`int(port_str)` conversion failure. -/
inductive InviteParseError where
  | missingSlash
  | missingColon
  | badPort
deriving DecidableEq, Repr

instance {ε α : Type} [DecidableEq ε] [DecidableEq α] : DecidableEq (Except ε α) := fun
  | .error a, .error b => decidable_of_iff (a = b) (by simp)
  | .error _, .ok _ => isFalse (by simp)
  | .ok _, .error _ => isFalse (by simp)
  | .ok a, .ok b => decidable_of_iff (a = b) (by simp)

/-- `utils.format_invite(host, port, token)`:
`f"{INVITE_PREFIX}{host}:{port}/{token}"`. -/
def formatInvite (host : String) (port : Int) (token : String) : String :=
  String.mk (invitePrefixL ++ host.data ++ ':' :: intReprL port ++ '/' :: token.data)

/-- `utils.parse_invite(code)`: optionally strip the scheme text, split
`host:port` from `token` at the first `/`, split `host` from `port` at
the last `:`, convert the port with `int`. -/
def parseInvite (code : String) : Except InviteParseError Invite :=
  let rest := stripInviteScheme code.data
  match splitFirst '/' rest with
  | none => .error .missingSlash
  | some (hostPort, token) =>
    match rsplitLast ':' hostPort with
    | none => .error .missingColon
    | some (host, portStr) =>
      match pyParseInt portStr with
      | none => .error .badPort
      | some p => .ok ⟨String.mk host, p, String.mk token⟩

/-! ## Wire messages and connection handler (`src/concordia/server.py`) -/

/-- An inbound JSON message as the handler reads it: `msg.get("type")`,
`msg.get("user")`, `msg.get("token")`, `msg.get("text")`, each `none`
when the field is absent or `null`. -/
structure WireMsg where
  type : Option String
  user : Option String
  token : Option String
  text : Option String
deriving DecidableEq, Repr

/-- Host→client messages produced by the handler paths under study. -/
inductive OutMsg where
  | error (message : String)
  | system (message : String)
  | participants (mainUser : String) (users : List String)
  | pong
  | output (text : String)
deriving DecidableEq, Repr

/-- Python `dict` assignment `d[k] = v` on an insertion-ordered
association list: replace the value in place when the key is present,
append otherwise. -/
def dictSet : List (String × Nat) → String → Nat → List (String × Nat)
  | [], k, v => [(k, v)]
  | (a, b) :: t, k, v => if a = k then (k, v) :: t else (a, b) :: dictSet t k v

/-- Python `d.get(k)` on the association list. -/
def dictGet (d : List (String × Nat)) (k : String) : Option Nat :=
  (d.find? (fun p => p.1 = k)).map Prod.snd

/-- Python `sorted(keys)` for the participants snapshot. -/
def sortStrings (l : List String) : List String :=
  l.mergeSort (fun a b => a ≤ b)

/-- Outcome of processing a connection's first message in
`PartyServer._handler` (server.py:67-81): the replies sent to this
websocket only, the broadcasts emitted, the connection registry after
the message, and the assigned name when authentication succeeded
(`none` means the handler returns and the connection closes). -/
structure HelloResult where
  sends : List OutMsg
  broadcasts : List OutMsg
  conns : List (String × Nat)
  accepted : Option String
deriving DecidableEq, Repr

/-- `PartyServer._handler`, first message (server.py:70-81): a non-`hello`
type gets `error "missing hello"`; a token different from the invite
token gets `error "invalid invite"`; otherwise the connection is stored
under `msg.get("user") or "user"` and a `system` joined event plus a
`participants` snapshot are broadcast. -/
def handleHello (secret creator : String) (conns : List (String × Nat))
    (ws : Nat) (msg : WireMsg) : HelloResult :=
  if msg.type ≠ some "hello" then
    ⟨[.error "missing hello"], [], conns, none⟩
  else if msg.token ≠ some secret then
    ⟨[.error "invalid invite"], [], conns, none⟩
  else
    let name := match msg.user with
      | none => "user"
      | some u => if u = "" then "user" else u
    let conns2 := dictSet conns name ws
    ⟨[],
     [.system (name ++ " joined"),
      .participants creator (sortStrings (conns2.map Prod.fst))],
     conns2, some name⟩

/-- Outcome of one iteration of the authenticated receive loop in
`PartyServer._handler` (server.py:82-87): the direct replies and the
prompt text handed to `_enqueue_prompt`, if any. -/
structure LoopResult where
  sends : List OutMsg
  enqueued : Option String
deriving DecidableEq, Repr

/-- The authenticated receive loop body (server.py:82-87): `prompt`
enqueues `msg.get("text", "")`, `ping` replies `pong`, and there is no
branch for any other type. -/
def handleLoopMessage (msg : WireMsg) : LoopResult :=
  if msg.type = some "prompt" then ⟨[], some (msg.text.getD "")⟩
  else if msg.type = some "ping" then ⟨[.pong], none⟩
  else ⟨[], none⟩

/-- The client→host message types of the wire protocol table in the
spec (`hello`, `prompt`, `input_bytes`, `ping`). -/
def knownClientTags : List String := ["hello", "prompt", "input_bytes", "ping"]

/-! ## Debounce-batch pipeline (`src/concordia/server.py`) -/

/-- `server.PromptItem`: `{user, text, ts}`. Timestamps are modelled as
rationals. -/
structure PromptItem where
  user : String
  text : String
  ts : ℚ
deriving DecidableEq, Repr

/-- The mutable pipeline state: `PartyState.pending` and
`PartyServer._last_prompt_ts`. -/
structure DebounceState where
  pending : List PromptItem
  lastPromptTs : Option ℚ
deriving DecidableEq, Repr

/-- `PartyServer._enqueue_prompt` (server.py:118-125): strip the text,
return silently when empty, else append a `PromptItem` stamped `now` and
set the last-submission timestamp; the returned `Bool` records whether
the "received prompt" acknowledgment is broadcast. -/
def enqueuePrompt (st : DebounceState) (user text : String) (now : ℚ) :
    DebounceState × Bool :=
  let t := strStrip text
  if t = "" then (st, false)
  else (⟨st.pending ++ [⟨user, t, now⟩], some now⟩, true)

/-- What one poll of `_dedupe_loop` does after the sleep: nothing, or
cut a batch that is then discarded (below the minimum prompt count,
`continue` without `_process_batch`) or processed (`_process_batch`). -/
inductive CutAction where
  | skip
  | discard (batch : List PromptItem)
  | process (batch : List PromptItem)
deriving DecidableEq, Repr

/-- One iteration of `PartyServer._dedupe_loop` (server.py:127-143),
evaluated at time `now`: skip when the queue is empty, when no
last-submission timestamp exists, or when the elapsed time since it is
below the dedupe window; otherwise drain the queue, clear the timestamp,
and discard the batch when it is smaller than `min_prompts`, else
process it. -/
def dedupeTick (st : DebounceState) (now window : ℚ) (minPrompts : Nat) :
    DebounceState × CutAction :=
  if st.pending = [] then (st, .skip)
  else
    match st.lastPromptTs with
    | none => (st, .skip)
    | some ts =>
      if now - ts < window then (st, .skip)
      else
        let batch := st.pending
        if batch.length < minPrompts then (⟨[], none⟩, .discard batch)
        else (⟨[], none⟩, .process batch)

/-- A sequence of `submit` calls applied to an empty pipeline: each
element is `(user, text, timestamp)`. -/
def runSubmits (subs : List (String × String × ℚ)) : DebounceState :=
  subs.foldl (fun st s => (enqueuePrompt st s.1 s.2.1 s.2.2).1) ⟨[], none⟩

/-- The `PromptItem` that `_enqueue_prompt` records for a submission. -/
def submittedItem (s : String × String × ℚ) : PromptItem :=
  ⟨s.1, strStrip s.2.1, s.2.2⟩

/-! ## Merge collaborator failures (`src/concordia/dedupe.py`,
`PartyServer._process_batch`) -/

/-- The exceptions `dedupe.dedupe_with_gemini` raises (dedupe.py:42-68):
a non-200 HTTP response (`RuntimeError(f"Gemini API error: {status}
{text}")`, raised for every non-200 status), an empty candidate list, or
empty content parts. -/
inductive GeminiFailure where
  | httpError (status : Nat) (body : String)
  | noCandidates
  | emptyContent
deriving DecidableEq, Repr

/-- `str(exc)` for each `GeminiFailure`. -/
def geminiFailureMessage : GeminiFailure → String
  | .httpError s b =>
    String.mk ("Gemini API error: ".data ++ natReprL s ++ ' ' :: b.data)
  | .noCandidates => "Gemini API returned no candidates"
  | .emptyContent => "Gemini API returned empty content"

/-- The broadcast text of the credential-invalidation branch of
`_process_batch` (server.py:157). -/
def apiKeyInvalidMsg (exc : GeminiFailure) : String :=
  String.mk ("API key invalid: ".data ++ (geminiFailureMessage exc).data
    ++ ". Restart to re-enter.".data)

/-- The broadcast text of the other-failure branch of `_process_batch`
(server.py:159). -/
def dedupeFailedMsg (exc : GeminiFailure) : String :=
  String.mk ("dedupe failed: ".data ++ (geminiFailureMessage exc).data)

/-- State after the exception branch of `_process_batch`: the
`GEMINI_API_KEY` value, whether the on-disk env file was blanked, and
the `error` broadcast that was emitted. -/
structure BatchFailureResult where
  apiKey : String
  envFileCleared : Bool
  broadcast : OutMsg
deriving DecidableEq, Repr

/-- The `except` branch of `PartyServer._process_batch`
(server.py:151-160): when `"Gemini API error" in str(exc)`, the cached
key is cleared (environment and env file) and an "API key invalid"
`error` is broadcast; otherwise a "dedupe failed" `error` is broadcast
and the key is kept. -/
def processBatchFailure (apiKey : String) (exc : GeminiFailure) :
    BatchFailureResult :=
  if strContains (geminiFailureMessage exc) "Gemini API error" then
    ⟨"", true, .error (apiKeyInvalidMsg exc)⟩
  else
    ⟨apiKey, false, .error (dedupeFailedMsg exc)⟩

/-- Modelled from the spec: "a merge failure caused by collaborator
authentication being rejected" — the HTTP statuses with which the
collaborator rejects authentication (bad key / unauthorized /
forbidden).  The code itself never distinguishes these from other
non-200 statuses; this definition exists to compare the spec's
condition with the code's. -/
def isAuthRejection : GeminiFailure → Bool
  | .httpError s _ => s = 400 || s = 401 || s = 403
  | _ => false

/-! ## End-of-session context file (`PartyServer._write_context_file`,
`dedupe.build_session_summary`) -/

/-- The prompt list `_write_context_file` works on (server.py:271):
`[p.strip() for p in deduped_prompts if p.strip()]`. -/
def contextPrompts (dedupedPrompts : List (List Char)) : List (List Char) :=
  dedupedPrompts.filterMap fun p =>
    let s := pyStripList p
    if s = [] then none else some s

/-- The enumerated prompt lines of `dedupe.summarize_fallback`
(dedupe.py:116-117): `f"- Prompt {idx}: {prompt.strip()}"`. -/
def summarizeFallbackItems : Nat → List (List Char) → List (List Char)
  | _, [] => []
  | i, p :: ps =>
    ("- Prompt ".data ++ natReprL i ++ ':' :: ' ' :: pyStripList p)
      :: summarizeFallbackItems (i + 1) ps

/-- The line list of `dedupe.summarize_fallback` (dedupe.py:113-124). -/
def summarizeFallbackLines (prompts : List (List Char)) : List (List Char) :=
  "## Session Goals".data
    :: "- Consolidate participant prompts into executable work.".data
    :: []
    :: "## Implemented Or Requested Work".data
    :: (summarizeFallbackItems 1 prompts
        ++ [[],
            "## Open Questions Or Risks".data,
            "- No Gemini summary available; review prompt list directly.".data,
            [],
            "## Next Steps".data,
            "- Continue from the latest deduped prompt context.".data])

/-- `dedupe.summarize_fallback(deduped_prompts)`:
`"\n".join(lines).strip()`. -/
def summarizeFallback (prompts : List (List Char)) : List Char :=
  pyStripList (joinLines (summarizeFallbackLines prompts))

/-- The per-prompt line group of `PartyServer._fallback_context_summary`
(server.py:292-295): `"### Prompt {idx}"`, the prompt, a blank line. -/
def fallbackContextItems : Nat → List (List Char) → List (List Char)
  | _, [] => []
  | i, p :: ps =>
    ("### Prompt ".data ++ natReprL i) :: p :: []
      :: fallbackContextItems (i + 1) ps

/-- `PartyServer._fallback_context_summary(prompts)` (server.py:290-296):
`"\n".join(lines).rstrip()` over a `## Deduped Prompts` skeleton. -/
def fallbackContextSummary (prompts : List (List Char)) : List Char :=
  pyRstripList (joinLines
    ("## Deduped Prompts".data :: [] :: fallbackContextItems 1 prompts))

/-- `dedupe.build_session_summary(deduped_prompts, api_key)`
(dedupe.py:127-130): call the Gemini summarizer when a key is
configured, else the deterministic fallback.  The external call is
opaque network I/O; its outcome is the parameter `collab` (`some s` =
the summarizer returned `s`, `none` = it raised). -/
def buildSessionSummary (prompts : List (List Char)) (apiKey : List Char)
    (collab : Option (List Char)) : Option (List Char) :=
  if apiKey ≠ [] then collab else some (summarizeFallback prompts)

/-- The fixed content written when no prompts were processed
(server.py:273). -/
def noPromptsContent : List Char :=
  "# Concordia Context\n\nNo deduped prompts were processed in this session.\n".data

/-- `PartyServer._write_context_file` (server.py:265-288): a no-op when
the `context_written` flag is already set; otherwise set the flag and
write `# Concordia Context` followed by the session summary, falling
back to `_fallback_context_summary` when the summarizer raised or
returned whitespace.  Returns the flag after the call and the content
written (`none` = nothing written). -/
def writeContextFile (contextWritten : Bool)
    (dedupedPrompts : List (List Char)) (apiKey : List Char)
    (collab : Option (List Char)) : Bool × Option (List Char) :=
  if contextWritten then (true, none)
  else
    let prompts := contextPrompts dedupedPrompts
    if prompts = [] then (true, some noPromptsContent)
    else
      let key := pyStripList apiKey
      let summary :=
        match buildSessionSummary prompts key collab with
        | some s => s
        | none => fallbackContextSummary prompts
      let body :=
        if pyStripList summary = [] then fallbackContextSummary prompts
        else pyStripList summary
      (true, some ("# Concordia Context\n\n".data ++ body ++ ['\n']))

/-! ## Helper lemmas: Python string primitives -/

/-- `dropWhile` leaves a list whose head fails the predicate (or is
empty). -/
theorem dropWhile_shape (p : Char → Bool) (l : List Char) :
    l.dropWhile p = [] ∨
      ∃ c t, l.dropWhile p = c :: t ∧ p c = false := by
  induction l with
  | nil => exact .inl rfl
  | cons c t ih =>
    rw [List.dropWhile_cons]
    by_cases h : p c = true
    · simpa [h] using ih
    · exact .inr ⟨c, t, by simp [h], by simpa using h⟩

/-- `dropWhile` is the identity on a list with no satisfying element. -/
theorem dropWhile_eq_self_of (p : Char → Bool) (l : List Char)
    (h : ∀ c ∈ l, p c = false) : l.dropWhile p = l := by
  cases l with
  | nil => rfl
  | cons c t => rw [List.dropWhile_cons, h c (List.mem_cons_self c t)]; simp

/-- `dropWhile` is idempotent. -/
theorem dropWhile_idem (p : Char → Bool) (l : List Char) :
    (l.dropWhile p).dropWhile p = l.dropWhile p := by
  rcases dropWhile_shape p l with h | ⟨c, t, h, hc⟩
  · rw [h]; rfl
  · rw [h]; simp [List.dropWhile_cons, hc]

/-- `dropWhile` distributes over appending a non-satisfying last
element. -/
theorem dropWhile_append_singleton (p : Char → Bool) (a : List Char)
    (x : Char) (hx : p x = false) :
    (a ++ [x]).dropWhile p = a.dropWhile p ++ [x] := by
  rw [List.dropWhile_append]
  by_cases h : (a.dropWhile p).isEmpty = true
  · simp_all [List.isEmpty_iff, List.dropWhile_cons]
  · simp [h]

/-- `rstrip` of a list headed by a non-space character keeps the head. -/
theorem pyRstrip_cons (c : Char) (t : List Char) (hc : isPySpace c = false) :
    pyRstripList (c :: t) = c :: (t.reverse.dropWhile isPySpace).reverse := by
  unfold pyRstripList
  rw [List.reverse_cons, dropWhile_append_singleton _ _ _ hc,
    List.reverse_append]
  rfl

/-- `rstrip` is idempotent. -/
theorem pyRstrip_idem (l : List Char) :
    pyRstripList (pyRstripList l) = pyRstripList l := by
  unfold pyRstripList
  rw [List.reverse_reverse, dropWhile_idem]

/-- On a list headed by a non-space character, `strip` and `rstrip`
agree. -/
theorem pyStrip_cons (c : Char) (t : List Char) (hc : isPySpace c = false) :
    pyStripList (c :: t) = pyRstripList (c :: t) := by
  unfold pyStripList
  rw [List.dropWhile_cons, hc]
  simp

/-- `strip` is idempotent. -/
theorem pyStrip_idem (l : List Char) :
    pyStripList (pyStripList l) = pyStripList l := by
  unfold pyStripList
  rcases dropWhile_shape isPySpace l with h | ⟨c, t, h, hc⟩
  · rw [h]; rfl
  · rw [h, pyRstrip_cons c t hc, List.dropWhile_cons, hc]
    simp only [Bool.false_eq_true, if_false]
    rw [← pyRstrip_cons c _ hc]
    · exact pyRstrip_idem (c :: t)

/-- `strip` is the identity on a list with no whitespace character. -/
theorem pyStrip_eq_self_of (l : List Char)
    (h : ∀ c ∈ l, isPySpace c = false) : pyStripList l = l := by
  unfold pyStripList pyRstripList
  rw [dropWhile_eq_self_of _ _ h,
    dropWhile_eq_self_of _ _ (fun c hc => h c (List.mem_reverse.mp hc)),
    List.reverse_reverse]

/-- `strip` of a list headed by a non-space character is nonempty and
keeps that head. -/
theorem pyStrip_cons_ne_nil (c : Char) (t : List Char)
    (hc : isPySpace c = false) :
    ∃ r, pyStripList (c :: t) = c :: r := by
  rw [pyStrip_cons c t hc, pyRstrip_cons c t hc]
  exact ⟨_, rfl⟩

/-! ## Helper lemmas: decimal rendering and parsing -/

/-- Every rendered digit is an ASCII digit. -/
theorem isAsciiDigit_digitChar10 (n : Nat) :
    isAsciiDigit (digitChar10 n) = true := by
  rcases n with _ | _ | _ | _ | _ | _ | _ | _ | _ | n <;> rfl

/-- `digitVal` inverts `digitChar10` below 10. -/
theorem digitVal_digitChar10 (n : Nat) (h : n < 10) :
    digitVal (digitChar10 n) = n := by
  interval_cases n <;> rfl

/-- The fuel argument of `natReprAux` is irrelevant once sufficient. -/
theorem natReprAux_fuel (f1 : Nat) : ∀ f2 n, n < f1 → n < f2 →
    natReprAux f1 n = natReprAux f2 n := by
  induction f1 with
  | zero => intro f2 n h; omega
  | succ f1 ih =>
    intro f2 n h1 h2
    cases f2 with
    | zero => omega
    | succ f2 =>
      show natReprAux (f1 + 1) n = natReprAux (f2 + 1) n
      rw [natReprAux, natReprAux]
      by_cases h : n < 10
      · simp [h]
      · have hd : n / 10 < n := Nat.div_lt_self (by omega) (by omega)
        rw [ih f2 (n / 10) (by omega) (by omega)]

/-- Unfolding equation for `natReprL`. -/
theorem natReprL_eq (n : Nat) :
    natReprL n = if n < 10 then [digitChar10 n]
      else natReprL (n / 10) ++ [digitChar10 (n % 10)] := by
  unfold natReprL
  rw [natReprAux]
  by_cases h : n < 10
  · simp [h]
  · have hd : n / 10 < n := Nat.div_lt_self (by omega) (by omega)
    rw [natReprAux_fuel n (n / 10 + 1) (n / 10) (by omega) (by omega)]

/-- Rendered numbers are nonempty digit strings. -/
theorem natReprL_shape (n : Nat) :
    ∃ c t, natReprL n = c :: t ∧
      ∀ d ∈ natReprL n, isAsciiDigit d = true := by
  induction n using Nat.strong_induction_on with
  | _ n ih =>
    rw [natReprL_eq]
    by_cases h : n < 10
    · refine ⟨digitChar10 n, [], by simp [h], ?_⟩
      intro d hdm
      simp only [h, if_true] at hdm
      rw [List.mem_singleton] at hdm
      rw [hdm]
      exact isAsciiDigit_digitChar10 n
    · have hd : n / 10 < n := Nat.div_lt_self (by omega) (by omega)
      obtain ⟨c, t, hct, hall⟩ := ih (n / 10) hd
      refine ⟨c, t ++ [digitChar10 (n % 10)], by simp [h, hct], ?_⟩
      intro d hdm
      simp only [h, if_false] at hdm
      rcases List.mem_append.mp hdm with hm | hm
      · exact hall d hm
      · rw [List.mem_singleton] at hm
        rw [hm]
        exact isAsciiDigit_digitChar10 (n % 10)

/-- An ASCII digit is distinct from any fixed non-digit character. -/
theorem digit_ne_of (c d : Char) (h : isAsciiDigit c = true)
    (hd : isAsciiDigit d = false) : c ≠ d := by
  intro he
  rw [he, hd] at h
  cases h

/-- An ASCII digit is not Python whitespace. -/
theorem digit_not_space (c : Char) (h : isAsciiDigit c = true) :
    isPySpace c = false := by
  by_contra hs
  have hs' : isPySpace c = true := by
    revert hs; cases isPySpace c <;> simp
  unfold isPySpace at hs'
  simp only [Bool.or_eq_true, decide_eq_true_eq] at hs'
  rcases hs' with ((((h1 | h1) | h1) | h1) | h1) | h1 <;>
    (subst h1; exact absurd h (by decide))

/-- The accumulating step of decimal parsing. -/
def digitStep (a : Nat) (c : Char) : Nat := a * 10 + digitVal c

/-- On an all-digit list, `parseDigitsAux` folds the digits into the
accumulator. -/
theorem parseDigitsAux_all_digits (l : List Char) : ∀ acc,
    (∀ c ∈ l, isAsciiDigit c = true) →
    parseDigitsAux acc l = some (l.foldl digitStep acc) := by
  induction l with
  | nil => intro acc _; rfl
  | cons c t ih =>
    intro acc h
    have hc : isAsciiDigit c = true := h c (List.mem_cons_self c t)
    have hcu : ¬ (c = '_') := digit_ne_of c '_' hc (by decide)
    rw [parseDigitsAux.eq_def]
    simp only [hcu, if_false, hc, if_true]
    rw [ih (acc * 10 + digitVal c) (fun d hd => h d (List.mem_cons_of_mem c hd))]
    rfl

/-- Folding the digits of a rendered number recovers it (shifted past
the accumulator). -/
theorem foldl_natReprL (n : Nat) : ∀ acc,
    (natReprL n).foldl digitStep acc
      = acc * 10 ^ (natReprL n).length + n := by
  induction n using Nat.strong_induction_on with
  | _ n ih =>
    intro acc
    rw [natReprL_eq]
    by_cases h : n < 10
    · simp [h, List.foldl, digitStep, digitVal_digitChar10 n h]
    · have hd : n / 10 < n := Nat.div_lt_self (by omega) (by omega)
      simp only [h, if_false, List.foldl_append, List.length_append,
        List.foldl_cons, List.foldl_nil, List.length_cons, List.length_nil]
      rw [ih (n / 10) hd acc]
      rw [digitStep, digitVal_digitChar10 (n % 10) (Nat.mod_lt n (by omega))]
      rw [pow_succ]
      have := Nat.div_add_mod n 10
      ring_nf
      omega

/-- Parsing the decimal rendering of `n` yields `n`. -/
theorem parseDigits_natReprL (n : Nat) :
    parseDigits (natReprL n) = some n := by
  obtain ⟨c, t, hct, hall⟩ := natReprL_shape n
  have hc : isAsciiDigit c = true := hall c (by rw [hct]; exact List.mem_cons_self c t)
  rw [hct, parseDigits, hc, if_pos rfl]
  rw [parseDigitsAux_all_digits t (digitVal c)
    (fun d hd => hall d (by rw [hct]; exact List.mem_cons_of_mem c hd))]
  have h0 : (natReprL n).foldl digitStep 0 = n := by
    rw [foldl_natReprL n 0]; omega
  rw [hct] at h0
  simp only [List.foldl_cons] at h0
  have : digitStep 0 c = digitVal c := by rw [digitStep]; omega
  rw [this] at h0
  rw [h0]

/-- `pyParseInt` inverts the decimal rendering of a natural number. -/
theorem pyParseInt_natReprL (n : Nat) :
    pyParseInt (natReprL n) = some (n : Int) := by
  obtain ⟨c, t, hct, hall⟩ := natReprL_shape n
  have hc : isAsciiDigit c = true := hall c (by rw [hct]; exact List.mem_cons_self c t)
  have hstrip : pyStripList (natReprL n) = natReprL n :=
    pyStrip_eq_self_of _ (fun d hd => digit_not_space d (hall d hd))
  rw [pyParseInt]
  rw [hstrip, hct]
  have hplus : ¬ (c = '+') := digit_ne_of c '+' hc (by decide)
  have hminus : ¬ (c = '-') := digit_ne_of c '-' hc (by decide)
  simp only [hplus, if_false, hminus]
  rw [← hct, parseDigits_natReprL n]
  rfl

/-! ## Helper lemmas: splitting -/

/-- Splitting at the first occurrence of the separator. -/
theorem splitFirst_append (c : Char) (a b : List Char) (ha : c ∉ a) :
    splitFirst c (a ++ c :: b) = some (a, b) := by
  induction a with
  | nil => simp [splitFirst]
  | cons x xs ih =>
    have hx : ¬ (x = c) := fun h => ha (h ▸ List.mem_cons_self x xs)
    rw [List.cons_append, splitFirst]
    simp only [hx, if_false]
    rw [ih (fun h => ha (List.mem_cons_of_mem x h))]
    rfl

/-- `splitFirst` fails exactly when the separator is absent. -/
theorem splitFirst_eq_none_iff (c : Char) (l : List Char) :
    splitFirst c l = none ↔ c ∉ l := by
  induction l with
  | nil => simp [splitFirst]
  | cons x xs ih =>
    simp only [splitFirst, List.mem_cons]
    by_cases hx : x = c
    · subst hx; simp
    · simp only [hx, if_false]
      constructor
      · intro h hm
        cases hs : splitFirst c xs with
        | none =>
          rcases hm with hm | hm
          · exact hx hm.symm
          · exact (ih.mp hs) hm
        | some p => rw [hs] at h; simp at h
      · intro hm
        rw [ih.mpr (fun hmem => hm (Or.inr hmem))]
        rfl

/-- Splitting at the last occurrence of the separator. -/
theorem rsplitLast_append (c : Char) (a b : List Char) (hb : c ∉ b) :
    rsplitLast c (a ++ c :: b) = some (a, b) := by
  rw [rsplitLast]
  have hrev : (a ++ c :: b).reverse = b.reverse ++ c :: a.reverse := by
    simp
  rw [hrev, splitFirst_append c _ _ (fun h => hb (List.mem_reverse.mp h))]
  simp

/-- `rsplitLast` fails exactly when the separator is absent. -/
theorem rsplitLast_eq_none_iff (c : Char) (l : List Char) :
    rsplitLast c l = none ↔ c ∉ l := by
  rw [rsplitLast]
  constructor
  · intro h hm
    cases hs : splitFirst c l.reverse with
    | none =>
      exact (splitFirst_eq_none_iff c l.reverse).mp hs (List.mem_reverse.mpr hm)
    | some p => rw [hs] at h; simp at h
  · intro hm
    rw [(splitFirst_eq_none_iff c l.reverse).mpr
      (fun hr => hm (List.mem_reverse.mp hr))]
    rfl

/-- `isPrefixOf` holds on an appended extension. -/
theorem isPrefixOf_append_self (a b : List Char) :
    a.isPrefixOf (a ++ b) = true := by
  induction a with
  | nil => simp [List.isPrefixOf]
  | cons x xs ih => simp [List.isPrefixOf, ih]

/-- `dictSet` stores the value under the key. -/
theorem dictGet_dictSet (d : List (String × Nat)) (k : String) (v : Nat) :
    dictGet (dictSet d k v) k = some v := by
  induction d with
  | nil => simp [dictSet, dictGet, List.find?]
  | cons a t ih =>
    obtain ⟨ak, av⟩ := a
    rw [dictSet]
    by_cases h : ak = k
    · simp [h, dictGet, List.find?]
    · simp only [h, if_false, dictGet, List.find?_cons]
      have hred : decide False = false := rfl
      rw [hred]
      exact ih

/-! ## C5 — invite round trip -/

/-- **C5.** For every host string containing no `/` and no leading scheme
text, every non-negative port, and every non-empty secret, decoding the
encoded invite string returns exactly the original
`{host, port, secret}` triple. -/
theorem invite_roundtrip (host : String) (port : Int) (secret : String)
    (hh : '/' ∉ host.data)
    (hscheme : ¬ (invitePrefixL <+: host.data))
    (hport : 0 ≤ port)
    (hsec : secret ≠ "") :
    parseInvite (formatInvite host port secret)
      = .ok ⟨host, port, secret⟩ := by
  have hdig : intReprL port = natReprL port.toNat := by
    rw [intReprL, if_neg (not_lt.mpr hport)]
  obtain ⟨c, t, hct, hall⟩ := natReprL_shape port.toNat
  have hnocolon : ':' ∉ intReprL port := by
    rw [hdig]
    intro hm
    exact digit_ne_of _ ':' (hall _ hm) (by decide) rfl
  have hnoslash : '/' ∉ intReprL port := by
    rw [hdig]
    intro hm
    exact digit_ne_of _ '/' (hall _ hm) (by decide) rfl
  have hdata : (formatInvite host port secret).data
      = invitePrefixL ++ (host.data ++ ':' :: intReprL port ++ '/' :: secret.data) := by
    simp [formatInvite]
  rw [parseInvite]
  have hstrip : stripInviteScheme (formatInvite host port secret).data
      = host.data ++ ':' :: intReprL port ++ '/' :: secret.data := by
    rw [hdata, stripInviteScheme,
      if_pos (isPrefixOf_append_self invitePrefixL _),
      List.drop_left]
  have hassoc : host.data ++ ':' :: intReprL port ++ '/' :: secret.data
      = (host.data ++ ':' :: intReprL port) ++ '/' :: secret.data := by
    simp
  have hsplit : splitFirst '/' (host.data ++ ':' :: intReprL port ++ '/' :: secret.data)
      = some (host.data ++ ':' :: intReprL port, secret.data) := by
    rw [hassoc]
    refine splitFirst_append '/' _ _ ?_
    intro hm
    rcases List.mem_append.mp hm with hm | hm
    · exact hh hm
    · rcases List.mem_cons.mp hm with hm | hm
      · cases hm
      · exact hnoslash hm
  have hrsplit : rsplitLast ':' (host.data ++ ':' :: intReprL port)
      = some (host.data, intReprL port) := rsplitLast_append ':' _ _ hnocolon
  have hparse : pyParseInt (intReprL port) = some port := by
    rw [hdig, pyParseInt_natReprL]
    rw [Int.toNat_of_nonneg hport]
  simp only [hstrip, hsplit, hrsplit, hparse]

/-- Witness for C5 at a concrete invite. -/
theorem invite_roundtrip_witness :
    parseInvite (formatInvite "myhost" 8765 "abc123")
      = .ok ⟨"myhost", 8765, "abc123"⟩ :=
  invite_roundtrip "myhost" 8765 "abc123" (by decide) (by decide)
    (by decide) (by decide)

/-! ## C6 — invite decoding failure conditions -/

/-- **C6 counterexample.** An invite string lacking the scheme text is
*not* rejected: `parse_invite` accepts `"h:1/s"` (the scheme strip is
conditional), contradicting the claim that a missing scheme prefix is a
failure case. -/
theorem invite_parse_no_scheme_accepted :
    parseInvite "h:1/s" = .ok ⟨"h", 1, "s"⟩
      ∧ invitePrefixL.isPrefixOf "h:1/s".data = false := by
  constructor
  · decide
  · decide

/-- **C6 (amended).** Invite decoding fails exactly when — after the
*optional* scheme strip — the input lacks the `/` separator, its
`host:port` part lacks the `:` separator, or the port part is not a
valid integer; on every other input it returns an `Invite`.  (The claim
as frozen also lists a missing scheme prefix as a failure cause; the
code strips the prefix only when present and accepts the input
otherwise.) -/
theorem invite_parse_error_iff (code : String) :
    ((∃ e, parseInvite code = .error e) ↔
      ('/' ∉ stripInviteScheme code.data
        ∨ ∃ hp tok, splitFirst '/' (stripInviteScheme code.data) = some (hp, tok)
            ∧ (':' ∉ hp
               ∨ ∃ h ps, rsplitLast ':' hp = some (h, ps) ∧ pyParseInt ps = none)))
    ∧ ((∃ i, parseInvite code = .ok i) ↔
      ¬ ('/' ∉ stripInviteScheme code.data
          ∨ ∃ hp tok, splitFirst '/' (stripInviteScheme code.data) = some (hp, tok)
              ∧ (':' ∉ hp
                 ∨ ∃ h ps, rsplitLast ':' hp = some (h, ps) ∧ pyParseInt ps = none))) := by
  rcases hs : splitFirst '/' (stripInviteScheme code.data) with _ | ⟨hp, tok⟩
  · have he : parseInvite code = .error .missingSlash := by
      rw [parseInvite]; simp only [hs]
    have hmem : '/' ∉ stripInviteScheme code.data :=
      (splitFirst_eq_none_iff _ _).mp hs
    constructor
    · constructor
      · intro _; exact .inl hmem
      · intro _; exact ⟨.missingSlash, he⟩
    · constructor
      · rintro ⟨i, hi⟩; rw [he] at hi; cases hi
      · intro hn; exact absurd (.inl hmem) hn
  · have hmem : '/' ∈ stripInviteScheme code.data := by
      by_contra hh
      rw [(splitFirst_eq_none_iff _ _).mpr hh] at hs
      cases hs
    rcases hr : rsplitLast ':' hp with _ | ⟨h1, ps⟩
    · have he : parseInvite code = .error .missingColon := by
        rw [parseInvite]; simp only [hs, hr]
      have hcol : ':' ∉ hp := (rsplitLast_eq_none_iff _ _).mp hr
      constructor
      · constructor
        · intro _; exact .inr ⟨hp, tok, rfl, .inl hcol⟩
        · intro _; exact ⟨.missingColon, he⟩
      · constructor
        · rintro ⟨i, hi⟩; rw [he] at hi; cases hi
        · intro hn; exact absurd (.inr ⟨hp, tok, rfl, .inl hcol⟩) hn
    · have hcol : ':' ∈ hp := by
        by_contra hh
        rw [(rsplitLast_eq_none_iff _ _).mpr hh] at hr
        cases hr
      rcases hpp : pyParseInt ps with _ | p
      · have he : parseInvite code = .error .badPort := by
          rw [parseInvite]; simp only [hs, hr, hpp]
        constructor
        · constructor
          · intro _; exact .inr ⟨hp, tok, rfl, .inr ⟨h1, ps, hr, hpp⟩⟩
          · intro _; exact ⟨.badPort, he⟩
        · constructor
          · rintro ⟨i, hi⟩; rw [he] at hi; cases hi
          · intro hn
            exact absurd (.inr ⟨hp, tok, rfl, .inr ⟨h1, ps, hr, hpp⟩⟩) hn
      · have he : parseInvite code = .ok ⟨String.mk h1, p, String.mk tok⟩ := by
          rw [parseInvite]; simp only [hs, hr, hpp]
        have hnofail : ¬ ('/' ∉ stripInviteScheme code.data
            ∨ ∃ hp2 tok2,
                (some (hp, tok) : Option (List Char × List Char)) = some (hp2, tok2)
                ∧ (':' ∉ hp2
                   ∨ ∃ h2 ps2, rsplitLast ':' hp2 = some (h2, ps2)
                       ∧ pyParseInt ps2 = none)) := by
          rintro (hfail | ⟨hp2, tok2, heq, hcase⟩)
          · exact hfail hmem
          · rw [Option.some.injEq, Prod.mk.injEq] at heq
            obtain ⟨he1, he2⟩ := heq
            subst he1; subst he2
            rcases hcase with hcase | ⟨h2, ps2, heq2, hpp2⟩
            · exact hcase hcol
            · rw [hr, Option.some.injEq, Prod.mk.injEq] at heq2
              obtain ⟨hb1, hb2⟩ := heq2
              subst hb2
              rw [hpp] at hpp2
              exact Option.noConfusion hpp2
        constructor
        · constructor
          · rintro ⟨e, hee⟩; rw [he] at hee; cases hee
          · intro hfail; exact absurd hfail hnofail
        · constructor
          · intro _; exact hnofail
          · intro _; exact ⟨_, he⟩

/-! ## C1 — name registration -/

/-- **C1 counterexample.** With `"sam"` already registered (transport
`1`), a `hello` requesting `"sam"` is assigned the name `"sam"` itself —
a name currently in the registry — and the existing entry is replaced
(its transport becomes `2`).  No `-2` suffix is ever produced. -/
theorem register_collision_replaces :
    (handleHello "sec" "alice" [("sam", 1)] 2
        ⟨some "hello", some "sam", some "sec", none⟩).accepted = some "sam"
    ∧ dictGet [("sam", 1)] "sam" = some 1
    ∧ dictGet (handleHello "sec" "alice" [("sam", 1)] 2
        ⟨some "hello", some "sam", some "sec", none⟩).conns "sam" = some 2 := by
  refine ⟨?_, ?_, ?_⟩ <;> decide

/-- **C1 (amended).** For every registry state and every nonempty
requested name, registration assigns exactly the requested name (no
suffix is ever appended), and the registry afterwards maps that name to
the new transport — replacing any existing entry; consequently
registering the same name N times in sequence assigns the same name
every time. -/
theorem register_assigns_requested (conns : List (String × Nat))
    (u sec creator : String) (ws : Nat) (hu : u ≠ "") :
    (handleHello sec creator conns ws
        ⟨some "hello", some u, some sec, none⟩).accepted = some u
    ∧ dictGet (handleHello sec creator conns ws
        ⟨some "hello", some u, some sec, none⟩).conns u = some ws := by
  rw [handleHello]
  simp only [if_neg (by simp : ¬ (some "hello" ≠ some "hello")),
    if_neg (by simp : ¬ (some sec ≠ some sec))]
  simp only [hu, if_false]
  refine ⟨?_, ?_⟩ <;> first | exact dictGet_dictSet conns u ws | trivial

/-- Witness for the amended C1. -/
theorem register_assigns_requested_witness :
    (handleHello "s" "al" [("sam", 1)] 2
        ⟨some "hello", some "sam", some "s", none⟩).accepted = some "sam"
    ∧ dictGet (handleHello "s" "al" [("sam", 1)] 2
        ⟨some "hello", some "sam", some "s", none⟩).conns "sam" = some 2 :=
  register_assigns_requested [("sam", 1)] "sam" "s" "al" 2 (by decide)

/-! ## C4 — invalid token rejection -/

/-- **C4.** A first message of type `hello` whose token differs from the
session secret gets exactly one `error` reply, no broadcast, an
unchanged registry, and the connection is not authenticated (the
handler returns and the transport closes). -/
theorem hello_bad_token_rejected (sec creator : String)
    (conns : List (String × Nat)) (ws : Nat) (msg : WireMsg)
    (htype : msg.type = some "hello") (htok : msg.token ≠ some sec) :
    handleHello sec creator conns ws msg
      = ⟨[.error "invalid invite"], [], conns, none⟩ := by
  rw [handleHello]
  rw [if_neg (by simp [htype]), if_pos htok]

/-- Witness for C4. -/
theorem hello_bad_token_rejected_witness :
    handleHello "sec" "al" [("bob", 7)] 9
        ⟨some "hello", some "eve", some "wrong", none⟩
      = ⟨[.error "invalid invite"], [], [("bob", 7)], none⟩ :=
  hello_bad_token_rejected "sec" "al" [("bob", 7)] 9
    ⟨some "hello", some "eve", some "wrong", none⟩ (by decide) (by decide)

/-! ## C10 — default user name -/

/-- **C10.** A `hello` with a valid token whose `user` field is absent,
null, or empty registers the connection under the default name
`"user"`: it is accepted, stored in the registry under `"user"`, and no
error is sent. -/
theorem hello_default_username (sec creator : String)
    (conns : List (String × Nat)) (ws : Nat) (user : Option String)
    (hu : user = none ∨ user = some "") :
    (handleHello sec creator conns ws
        ⟨some "hello", user, some sec, none⟩).accepted = some "user"
    ∧ dictGet (handleHello sec creator conns ws
        ⟨some "hello", user, some sec, none⟩).conns "user" = some ws
    ∧ (handleHello sec creator conns ws
        ⟨some "hello", user, some sec, none⟩).sends = [] := by
  rw [handleHello]
  simp only [if_neg (by simp : ¬ (some "hello" ≠ some "hello")),
    if_neg (by simp : ¬ (some sec ≠ some sec))]
  rcases hu with hu | hu <;> subst hu
  · refine ⟨?_, ?_, ?_⟩ <;>
      first | exact dictGet_dictSet conns "user" ws | trivial
  · simp only [if_pos rfl]
    refine ⟨?_, ?_, ?_⟩ <;>
      first | exact dictGet_dictSet conns "user" ws | trivial

/-- Witness for C10. -/
theorem hello_default_username_witness :
    (handleHello "sec" "al" [] 3
        ⟨some "hello", none, some "sec", none⟩).accepted = some "user"
    ∧ dictGet (handleHello "sec" "al" [] 3
        ⟨some "hello", none, some "sec", none⟩).conns "user" = some 3
    ∧ (handleHello "sec" "al" [] 3
        ⟨some "hello", none, some "sec", none⟩).sends = [] :=
  hello_default_username "sec" "al" [] 3 none (Or.inl rfl)

/-! ## C8 — unknown message tags -/

/-- **C8 counterexample.** An authenticated-loop message with the
unknown tag `"bogus"` produces no reply at all — in particular no
`error` — and enqueues nothing: unknown tags are silently ignored,
contradicting the claim that they are rejected with a structured
`error`. -/
theorem unknown_tag_silently_ignored :
    handleLoopMessage ⟨some "bogus", none, none, none⟩ = ⟨[], none⟩
    ∧ ("bogus" ∈ knownClientTags) = False := by
  constructor
  · decide
  · simp [knownClientTags]

/-- **C8 (amended).** Every authenticated-loop message whose tag is
neither `prompt` nor `ping` is silently ignored: no reply of any kind
is sent (rather than a structured `error`) and nothing is enqueued. -/
theorem unknown_tag_no_reply (msg : WireMsg)
    (h1 : msg.type ≠ some "prompt") (h2 : msg.type ≠ some "ping") :
    handleLoopMessage msg = ⟨[], none⟩ := by
  rw [handleLoopMessage, if_neg h1, if_neg h2]

/-- Witness for the amended C8. -/
theorem unknown_tag_no_reply_witness :
    handleLoopMessage ⟨some "input_bytes", none, none, some "zg==" ⟩ = ⟨[], none⟩ :=
  unknown_tag_no_reply ⟨some "input_bytes", none, none, some "zg==" ⟩
    (by decide) (by decide)

/-! ## C7 — sub-minimum batches are discarded -/

/-- **C7.** When the cut condition holds and the drained batch is
smaller than the configured minimum prompt count, the poll discards it:
the merge step (`_process_batch`) is not invoked, nothing is forwarded
to the hosted process, and the pending queue and timestamp are
nevertheless cleared. -/
theorem small_batch_discarded (st : DebounceState) (now window : ℚ)
    (m : Nat) (ts : ℚ)
    (hpend : st.pending ≠ [])
    (hts : st.lastPromptTs = some ts)
    (helapsed : window ≤ now - ts)
    (hsmall : st.pending.length < m) :
    dedupeTick st now window m = (⟨[], none⟩, .discard st.pending) := by
  rw [dedupeTick, if_neg hpend, hts]
  simp only [not_lt.mpr helapsed, if_false, hsmall, if_true]

/-- Witness for C7. -/
theorem small_batch_discarded_witness :
    dedupeTick ⟨[⟨"a", "x", 0⟩], some 0⟩ 5 3 2
      = (⟨[], none⟩, .discard [⟨"a", "x", 0⟩]) :=
  small_batch_discarded ⟨[⟨"a", "x", 0⟩], some 0⟩ 5 3 2 0
    (by decide) rfl (by norm_num) (by decide)

/-! ## C3 — collaborator failure handling -/

/-- **C3 counterexample.** A merge failure from an HTTP 500 response —
a server error, not an authentication rejection — still invalidates the
stored credential: the claim that only auth-rejection failures
invalidate it, and every other failure leaves it intact, is false. -/
theorem server_error_clears_key :
    (processBatchFailure "key" (.httpError 500 "boom")).apiKey = ""
    ∧ (processBatchFailure "key" (.httpError 500 "boom")).envFileCleared = true
    ∧ isAuthRejection (.httpError 500 "boom") = false := by
  refine ⟨?_, ?_, ?_⟩ <;> decide

/-- **C3 (amended).** A merge failure from *any* non-200 HTTP response
of the collaborator (auth rejection or not — its message carries the
`Gemini API error` marker) invalidates the stored credential for the
rest of the process lifetime and is reported as an `error` broadcast;
a failure with any non-HTTP cause (missing candidates, empty content)
is reported as an `error` broadcast without invalidating the
credential. -/
theorem collaborator_failure_handling (key : String) (exc : GeminiFailure) :
    ((∃ s b, exc = .httpError s b) →
      processBatchFailure key exc
        = ⟨"", true, .error (apiKeyInvalidMsg exc)⟩)
    ∧ ((∀ s b, exc ≠ .httpError s b) →
      processBatchFailure key exc
        = ⟨key, false, .error (dedupeFailedMsg exc)⟩) := by
  constructor
  · rintro ⟨s, b, rfl⟩
    have hpre : "Gemini API error".data <+: (geminiFailureMessage (.httpError s b)).data := by
      rw [geminiFailureMessage]
      show "Gemini API error".data
        <+: "Gemini API error: ".data ++ natReprL s ++ ' ' :: b.data
      rw [List.append_assoc]
      refine List.IsPrefix.trans ?_ (List.prefix_append _ _)
      decide
    have hc : strContains (geminiFailureMessage (.httpError s b)) "Gemini API error" = true := by
      rw [strContains, decide_eq_true_eq]
      exact hpre.isInfix
    rw [processBatchFailure, if_pos hc]
  · intro hne
    have hc : strContains (geminiFailureMessage exc) "Gemini API error" = false := by
      cases exc with
      | httpError s b => exact absurd rfl (hne s b)
      | noCandidates => decide
      | emptyContent => decide
    rw [processBatchFailure, hc]
    simp

/-- Witness for the amended C3. -/
theorem collaborator_failure_handling_witness :
    processBatchFailure "k" (.httpError 401 "denied")
        = ⟨"", true, .error (apiKeyInvalidMsg (.httpError 401 "denied"))⟩
    ∧ processBatchFailure "k" .noCandidates
        = ⟨"k", false, .error (dedupeFailedMsg .noCandidates)⟩ :=
  ⟨(collaborator_failure_handling "k" (.httpError 401 "denied")).1
      ⟨401, "denied", rfl⟩,
   (collaborator_failure_handling "k" .noCandidates).2
      (fun s b h => by cases h)⟩

/-! ## C2 — batch exactness and the cut condition -/

/-- Folding `_enqueue_prompt` over submissions with non-whitespace text
appends exactly one `PromptItem` per submission, in order, and leaves
the last submission's timestamp. -/
theorem foldl_enqueue (subs : List (String × String × ℚ)) :
    ∀ st0 : DebounceState, (∀ s ∈ subs, strStrip s.2.1 ≠ "") →
    subs.foldl (fun st s => (enqueuePrompt st s.1 s.2.1 s.2.2).1) st0
      = ⟨st0.pending ++ subs.map submittedItem,
         match subs.getLast? with
         | some s => some s.2.2
         | none => st0.lastPromptTs⟩ := by
  induction subs with
  | nil =>
    intro st0 _
    simp only [List.foldl_nil, List.map_nil, List.append_nil, List.getLast?_nil]
  | cons s rest ih =>
    intro st0 h
    have hs : strStrip s.2.1 ≠ "" := h s (List.mem_cons_self s rest)
    have hstep : (enqueuePrompt st0 s.1 s.2.1 s.2.2).1
        = ⟨st0.pending ++ [submittedItem s], some s.2.2⟩ := by
      rw [enqueuePrompt]
      simp only [hs, if_false]
      rfl
    rw [List.foldl_cons, hstep,
      ih _ (fun x hx => h x (List.mem_cons_of_mem s hx))]
    cases rest with
    | nil => simp [submittedItem]
    | cons r rs =>
      simp only [List.map_cons, List.getLast?_cons_cons]
      rw [List.append_assoc]
      rfl

/-- **C2.** For every sequence of submissions with non-whitespace text
whose timestamps all lie within the debounce window of each other,
applied to an empty pipeline: the next cut drains exactly one
`PromptItem` per submission, in order — no prompt lost, duplicated, or
split — and in general a poll cuts a batch only when the queue is
non-empty, a last-submission timestamp exists, and the elapsed time
since it is at least the dedupe window. -/
theorem debounce_batch_exact (subs : List (String × String × ℚ))
    (now window : ℚ) (m : Nat) (last : String × String × ℚ)
    (hne : subs ≠ [])
    (htext : ∀ s ∈ subs, strStrip s.2.1 ≠ "")
    (hwin : ∀ a ∈ subs, ∀ b ∈ subs, a.2.2 - b.2.2 ≤ window)
    (hlast : subs.getLast? = some last)
    (helapsed : window ≤ now - last.2.2) :
    ((runSubmits subs).pending = subs.map submittedItem
     ∧ dedupeTick (runSubmits subs) now window m
        = (⟨[], none⟩,
           if (subs.map submittedItem).length < m
           then .discard (subs.map submittedItem)
           else .process (subs.map submittedItem)))
    ∧ (∀ (st : DebounceState) (n w : ℚ) (mp : Nat),
        (dedupeTick st n w mp).2 ≠ .skip →
        st.pending ≠ [] ∧ ∃ ts, st.lastPromptTs = some ts ∧ w ≤ n - ts) := by
  have hrun : runSubmits subs
      = ⟨subs.map submittedItem, some last.2.2⟩ := by
    rw [runSubmits, foldl_enqueue subs ⟨[], none⟩ htext, hlast]
    simp
  constructor
  · constructor
    · rw [hrun]
    · have hmapne : subs.map submittedItem ≠ [] := by
        intro hmap
        exact hne (List.map_eq_nil_iff.mp hmap)
      rw [hrun, dedupeTick]
      simp only [if_neg hmapne, not_lt.mpr helapsed, if_false, List.length_map]
      by_cases hlen : subs.length < m
      · simp [hlen]
      · simp [hlen]
  · intro st n w mp hh
    rw [dedupeTick] at hh
    by_cases hp : st.pending = []
    · simp [hp] at hh
    · cases hts : st.lastPromptTs with
      | none => rw [if_neg hp, hts] at hh; simp at hh
      | some ts =>
        rw [if_neg hp, hts] at hh
        by_cases hlt : n - ts < w
        · simp [hlt] at hh
        · exact ⟨hp, ts, rfl, not_lt.mp hlt⟩

/-- Witness for C2: two submitters within a 3-unit window, cut at
time 5. -/
theorem debounce_batch_exact_witness :
    ((runSubmits [("a", "hi", 0), ("b", "yo", 1)]).pending
        = [("a", "hi", (0 : ℚ)), ("b", "yo", 1)].map submittedItem
     ∧ dedupeTick (runSubmits [("a", "hi", 0), ("b", "yo", 1)]) 5 3 1
        = (⟨[], none⟩,
           if ([("a", "hi", (0 : ℚ)), ("b", "yo", 1)].map submittedItem).length < 1
           then .discard ([("a", "hi", (0 : ℚ)), ("b", "yo", 1)].map submittedItem)
           else .process ([("a", "hi", (0 : ℚ)), ("b", "yo", 1)].map submittedItem)))
    ∧ (∀ (st : DebounceState) (n w : ℚ) (mp : Nat),
        (dedupeTick st n w mp).2 ≠ .skip →
        st.pending ≠ [] ∧ ∃ ts, st.lastPromptTs = some ts ∧ w ≤ n - ts) :=
  debounce_batch_exact [("a", "hi", 0), ("b", "yo", 1)] 5 3 1 ("b", "yo", 1)
    (by decide)
    (by intro s hs; fin_cases hs <;> decide)
    (by intro a ha b hb; fin_cases ha <;> fin_cases hb <;> norm_num)
    rfl
    (by norm_num)

/-! ## C9 — end-of-session context file -/

/-- The joined summarize-fallback skeleton starts with `#`. -/
theorem summarizeFallback_join_shape (ps : List (List Char)) :
    ∃ t, joinLines (summarizeFallbackLines ps) = '#' :: t :=
  ⟨_, rfl⟩

/-- The joined context-fallback skeleton starts with `#`. -/
theorem fallbackContext_join_shape (ps : List (List Char)) :
    ∃ t, joinLines
        ("## Deduped Prompts".data :: [] :: fallbackContextItems 1 ps)
      = '#' :: t :=
  ⟨_, rfl⟩

/-- `summarize_fallback` output is already stripped and nonempty. -/
theorem summarizeFallback_strip (ps : List (List Char)) :
    pyStripList (summarizeFallback ps) = summarizeFallback ps
    ∧ summarizeFallback ps ≠ [] := by
  obtain ⟨t, hJ⟩ := summarizeFallback_join_shape ps
  constructor
  · rw [summarizeFallback]
    exact pyStrip_idem _
  · rw [summarizeFallback, hJ]
    obtain ⟨r, hr⟩ := pyStrip_cons_ne_nil '#' t (by decide)
    rw [hr]
    exact List.cons_ne_nil _ _

/-- `_fallback_context_summary` output is already stripped (it starts
with `#`, and its trailing whitespace is removed by `rstrip`) and
nonempty. -/
theorem fallbackContextSummary_strip (ps : List (List Char)) :
    pyStripList (fallbackContextSummary ps) = fallbackContextSummary ps
    ∧ fallbackContextSummary ps ≠ [] := by
  obtain ⟨t, hJ⟩ := fallbackContext_join_shape ps
  have h1 : pyRstripList ('#' :: t)
      = '#' :: (t.reverse.dropWhile isPySpace).reverse :=
    pyRstrip_cons '#' t (by decide)
  have hfc : fallbackContextSummary ps = pyRstripList ('#' :: t) := by
    rw [fallbackContextSummary, hJ]
  constructor
  · rw [hfc, h1, pyStrip_cons '#' _ (by decide), ← h1, pyRstrip_idem]
  · rw [hfc, h1]
    exact List.cons_ne_nil _ _

/-- **C9.** The context artifact is written exactly once (a second
invocation is a no-op, guarded by the `context_written` flag), and when
prompts were processed its content is the fixed `# Concordia Context`
heading followed by: the collaborator summary when a credential is
configured and the call returned non-whitespace text, the
`summarize_fallback` skeleton when no credential is configured, and
the `_fallback_context_summary` skeleton when the collaborator call
raised or returned whitespace. -/
theorem context_file_once (dp : List (List Char)) (key : List Char)
    (collab : Option (List Char))
    (hp : contextPrompts dp ≠ []) :
    writeContextFile true dp key collab = (true, none)
    ∧ ∃ body,
        writeContextFile false dp key collab
          = (true, some ("# Concordia Context\n\n".data ++ body ++ ['\n']))
        ∧ (pyStripList key = [] → body = summarizeFallback (contextPrompts dp))
        ∧ (pyStripList key ≠ [] → collab = none →
            body = fallbackContextSummary (contextPrompts dp))
        ∧ (∀ s, pyStripList key ≠ [] → collab = some s →
            body = (if pyStripList s = []
                    then fallbackContextSummary (contextPrompts dp)
                    else pyStripList s)) := by
  refine ⟨rfl, ?_⟩
  by_cases hkey : pyStripList key = []
  · refine ⟨summarizeFallback (contextPrompts dp), ?_, fun _ => rfl,
      fun hk _ => absurd hkey hk, fun s hk _ => absurd hkey hk⟩
    rw [writeContextFile]
    simp only [Bool.false_eq_true, if_false, if_neg hp, buildSessionSummary,
      hkey, ne_eq, not_true_eq_false, ite_false,
      (summarizeFallback_strip (contextPrompts dp)).1,
      (summarizeFallback_strip (contextPrompts dp)).2]
  · cases collab with
    | none =>
      refine ⟨fallbackContextSummary (contextPrompts dp), ?_, ?_, ?_, ?_⟩
      · rw [writeContextFile]
        simp only [Bool.false_eq_true, if_false, if_neg hp, buildSessionSummary,
          hkey, ne_eq, not_false_eq_true, ite_true,
          (fallbackContextSummary_strip (contextPrompts dp)).1,
          (fallbackContextSummary_strip (contextPrompts dp)).2]
      · intro hk; exact absurd hk hkey
      · intro _ _; rfl
      · intro s2 _ hs2; exact Option.noConfusion hs2
    | some s =>
      refine ⟨if pyStripList s = []
          then fallbackContextSummary (contextPrompts dp)
          else pyStripList s, ?_, ?_, ?_, ?_⟩
      · rw [writeContextFile]
        by_cases hss : pyStripList s = []
        · simp only [Bool.false_eq_true, if_false, if_neg hp, buildSessionSummary,
            hkey, ne_eq, not_false_eq_true, ite_true, hss, if_true,
            (fallbackContextSummary_strip (contextPrompts dp)).1,
            (fallbackContextSummary_strip (contextPrompts dp)).2]
        · simp only [Bool.false_eq_true, if_false, if_neg hp, buildSessionSummary,
            hkey, ne_eq, not_false_eq_true, ite_true, hss, if_false]
      · intro hk; exact absurd hk hkey
      · intro _ hn; exact Option.noConfusion hn
      · intro s2 _ hs2
        obtain rfl := Option.some.inj hs2
        rfl

/-- Witness for C9. -/
theorem context_file_once_witness :
    writeContextFile true ["fix bug".data] [] none = (true, none)
    ∧ ∃ body,
        writeContextFile false ["fix bug".data] [] none
          = (true, some ("# Concordia Context\n\n".data ++ body ++ ['\n']))
        ∧ (pyStripList [] = []
            → body = summarizeFallback (contextPrompts ["fix bug".data]))
        ∧ (pyStripList [] ≠ [] → (none : Option (List Char)) = none
            → body = fallbackContextSummary (contextPrompts ["fix bug".data]))
        ∧ (∀ s, pyStripList [] ≠ [] → (none : Option (List Char)) = some s
            → body = (if pyStripList s = []
                      then fallbackContextSummary (contextPrompts ["fix bug".data])
                      else pyStripList s)) :=
  context_file_once ["fix bug".data] [] none (by decide)
